import Mathlib

/-!
Verification of the provisioning orchestration subsystem of the azd CLI
(parameter prompter and deployment progress tracker), as a shallow embedding
in Lean 4.

Part 1 models the parameter prompter (`promptForParameter`). Its source file
is not part of the staged sources (only its test file
`src/cli/azd/pkg/infra/provisioning/bicep/prompt_test.go` is), so the
prompter is modelled from the specification text, as its doc comments note.

Part 2 models the deployment progress tracker
(`src/cli/azd/pkg/infra/provisioning_progress_display.go`), translated
directly from the Go source.
-/

/- ===================== Part 1: the parameter prompter ===================== -/

/-- Dynamically typed parameter value. The spec (design notes §9) prescribes a
tagged variant over String, Int, Bool, Array and Object carrying the canonical
native representation. -/
inductive ParamValue where
  | str (s : String)
  | num (n : Int)
  | bool (b : Bool)
  | arr (elems : List ParamValue)
  | obj (fields : List (String × ParamValue))
deriving Repr

mutual

/-- Structural equality test on dynamically typed parameter values. -/
def ParamValue.beq : ParamValue → ParamValue → Bool
  | .str a, .str b => a == b
  | .num a, .num b => a == b
  | .bool a, .bool b => a == b
  | .arr as, .arr bs => ParamValue.beqList as bs
  | .obj fs, .obj gs => ParamValue.beqFields fs gs
  | _, _ => false

/-- Structural equality test on lists of parameter values. -/
def ParamValue.beqList : List ParamValue → List ParamValue → Bool
  | [], [] => true
  | a :: as, b :: bs => ParamValue.beq a b && ParamValue.beqList as bs
  | _, _ => false

/-- Structural equality test on object fields. -/
def ParamValue.beqFields :
    List (String × ParamValue) → List (String × ParamValue) → Bool
  | [], [] => true
  | (k, v) :: fs, (l, w) :: gs =>
    k == l && ParamValue.beq v w && ParamValue.beqFields fs gs
  | _, _ => false

end

instance : BEq ParamValue := ⟨ParamValue.beq⟩

/-- Options recognized under the well-known `azd` metadata key of a parameter
definition (§3.1): a suggested default value and a semantic type override. -/
structure AzdMetadataOptions where
  default : Option ParamValue
  azdType : Option String
deriving Repr

/-- One input expected by an infrastructure template (§3.1). The Go field
`Type` is rendered `paramType` because `Type` is reserved in Lean. -/
structure ArmTemplateParameterDefinition where
  paramType : String
  allowedValues : Option (List ParamValue)
  minValue : Option Int
  maxValue : Option Int
  minLength : Option Int
  maxLength : Option Int
  azdMetadata : Option AzdMetadataOptions
deriving Repr

/-- The console, modelled as scripted terminal input (queued responses for
free-text prompts and for selects) plus observable output: the messages
written, and counters of how many prompt and select interactions were
issued (§4.1). -/
structure ConsoleState where
  promptResponses : List String
  selectResponses : List Nat
  output : List String
  promptCount : Nat
  selectCount : Nat
deriving Repr, DecidableEq

/-- Write one message to the console output log. -/
def consoleMessage (cs : ConsoleState) (m : String) : ConsoleState :=
  { cs with output := cs.output ++ [m] }

/-- ASCII lowercase of one character. -/
def asciiLowerChar (c : Char) : Char :=
  if 65 ≤ c.toNat ∧ c.toNat ≤ 90 then Char.ofNat (c.toNat + 32) else c

/-- ASCII lowercase of a string (enough for the case-insensitive match of
"true" and "false" required by §4.2.1). -/
def asciiLower (s : String) : String := ⟨s.data.map asciiLowerChar⟩

/-- Parse a run of decimal digits, accumulating into `acc`; fails on any
non-digit character. -/
def parseDigitsAux : List Char → Nat → Option Nat
  | [], acc => some acc
  | c :: cs, acc =>
    if 48 ≤ c.toNat ∧ c.toNat ≤ 57 then
      parseDigitsAux cs (acc * 10 + (c.toNat - 48))
    else none

/-- Parse a signed decimal integer: an optional sign followed by at least one
digit, with no other characters (the behavior of a strict integer
conversion such as Go strconv.Atoi on the inputs the claims exercise). -/
def parseIntText (s : String) : Option Int :=
  match s.data with
  | [] => none
  | c :: cs =>
    if c.toNat = 45 then
      match cs with
      | [] => none
      | _ => (parseDigitsAux cs 0).map (fun n => -(n : Int))
    else if c.toNat = 43 then
      match cs with
      | [] => none
      | _ => (parseDigitsAux cs 0).map (fun n => (n : Int))
    else (parseDigitsAux (c :: cs) 0).map (fun n => (n : Int))

/-- Whether `pat` is a prefix of `l`, on character lists. -/
def prefixCL : List Char → List Char → Bool
  | [], _ => true
  | _ :: _, [] => false
  | a :: as, b :: bs => a == b && prefixCL as bs

/-- Whether `pat` occurs as a contiguous run inside `l`, on character lists. -/
def substrCL (pat : List Char) : List Char → Bool
  | [] => prefixCL pat []
  | c :: cs => prefixCL pat (c :: cs) || substrCL pat cs

/-- Whether `pat` occurs as a substring of `s`. -/
def containsSubstr (s pat : String) : Bool := substrCL pat.data s.data

/-- Validation message for an integer or length lower bound; the spec (§4.2.3)
fixes the literal segment, for example "at least '1'". -/
def atLeastMessage (m : Int) : String :=
  "The value must be at least '" ++ toString m ++ "'."

/-- Validation message for an integer or length upper bound; the spec (§4.2.3)
fixes the literal segment, for example "at most '10'". -/
def atMostMessage (m : Int) : String :=
  "The value must be at most '" ++ toString m ++ "'."

/-- Validation message for input that does not parse as an integer (§4.2.3). -/
def convertIntMessage (s : String) : String :=
  "failed to convert '" ++ s ++ "' to an integer"

/-- Error produced when allowedValues is present but empty (§4.2.4). -/
def emptyAllowedValuesMessage : String :=
  "parameter definition has an empty list of allowed values"

/-- Modelled from the spec: default value resolution (§4.2.1) of
`promptForParameter`, whose source file is not among the staged sources. If
`metadata.azd.default` is present its natural type must match the parameter
type: for bool, a boolean or a string equal to "true"/"false" case
insensitively; for int, only a numeric value (a numeric-looking string is a
fatal error); for string, only a string; other types pass the value through. -/
def resolveDefault (d : ArmTemplateParameterDefinition) :
    Except String (Option ParamValue) :=
  match d.azdMetadata with
  | none => .ok none
  | some md =>
    match md.default with
    | none => .ok none
    | some v =>
      if d.paramType == "bool" then
        match v with
        | .bool b => .ok (some (.bool b))
        | .str s =>
          if asciiLower s == "true" then .ok (some (.bool true))
          else if asciiLower s == "false" then .ok (some (.bool false))
          else .error "failed to convert the default value to a boolean"
        | _ => .error "failed to convert the default value to a boolean"
      else if d.paramType == "int" then
        match v with
        | .num n => .ok (some (.num n))
        | _ => .error "failed to convert the default value to an integer"
      else if d.paramType == "string" || d.paramType == "secureString" then
        match v with
        | .str s => .ok (some (.str s))
        | _ => .error "failed to convert the default value to a string"
      else .ok (some v)

/-- Modelled from the spec: validation of one free-text response (§4.2.3
validation table). Int input is parsed as a signed integer and checked
against minValue and maxValue; string input is checked against minLength and
maxLength. The JSON array and object paths are outside the modelled scope
(no verified claim exercises them) and surface a model error. -/
def validateText (d : ArmTemplateParameterDefinition) (r : String) :
    Except String ParamValue :=
  if d.paramType == "int" then
    match parseIntText r with
    | none => .error (convertIntMessage r)
    | some n =>
      match d.minValue with
      | some m =>
        if n < m then .error (atLeastMessage m)
        else
          match d.maxValue with
          | some mx => if mx < n then .error (atMostMessage mx) else .ok (.num n)
          | none => .ok (.num n)
      | none =>
        match d.maxValue with
        | some mx => if mx < n then .error (atMostMessage mx) else .ok (.num n)
        | none => .ok (.num n)
  else if d.paramType == "string" || d.paramType == "secureString" then
    match d.minLength with
    | some m =>
      if (r.length : Int) < m then .error (atLeastMessage m)
      else
        match d.maxLength with
        | some mx =>
          if mx < (r.length : Int) then .error (atMostMessage mx) else .ok (.str r)
        | none => .ok (.str r)
    | none =>
      match d.maxLength with
      | some mx =>
        if mx < (r.length : Int) then .error (atMostMessage mx) else .ok (.str r)
      | none => .ok (.str r)
  else .error "parameter type not modelled"

/-- Modelled from the spec: the validation and retry loop (§4.2.3). Each
iteration issues one free-text prompt; on validation failure an explanatory
message is written to the console and the loop repeats with no retry cap.
The loop is driven by the scripted responses; an exhausted script is a
model-level error (the real console would block). The response list passed
equals `cs.promptResponses` at every call. -/
def promptLoopAux (d : ArmTemplateParameterDefinition) :
    List String → ConsoleState → Except String ParamValue × ConsoleState
  | [], cs => (.error "no prompt response scripted", cs)
  | r :: rest, cs =>
    let cs1 : ConsoleState :=
      { cs with promptResponses := rest, promptCount := cs.promptCount + 1 }
    match validateText d r with
    | .ok v => (.ok v, cs1)
    | .error msg => promptLoopAux d rest (consoleMessage cs1 msg)

/-- Modelled from the spec: the free-text prompt loop entry point (§4.2.3). -/
def promptLoop (d : ArmTemplateParameterDefinition) (cs : ConsoleState) :
    Except String ParamValue × ConsoleState :=
  promptLoopAux d cs.promptResponses cs

/-- Modelled from the spec: a select interaction (§4.1, §4.2.2). Consumes one
scripted select response (a chosen index) and returns the element of the
choice list at that index. -/
def doSelect (choices : List ParamValue) (cs : ConsoleState) :
    Except String ParamValue × ConsoleState :=
  match cs.selectResponses with
  | [] => (.error "no select response scripted", cs)
  | i :: rest =>
    let cs1 : ConsoleState :=
      { cs with selectResponses := rest, selectCount := cs.selectCount + 1 }
    match choices.get? i with
    | some v => (.ok v, cs1)
    | none => (.error "select index out of range", cs1)

/-- Modelled from the spec: `PromptForParameter` (§4.2), whose source file is
not among the staged sources (only its tests are). Order of checks: the
empty-allowed-values rule (§4.2.4) fails immediately with no interaction;
default value resolution (§4.2.1) fails immediately on a type mismatch, and
a default that is not an element of a non-empty allowedValues is a fatal
configuration error; then the prompt style is chosen (§4.2.2): select over
allowedValues when non-empty, select over False/True for bool, the location
picker (outside the modelled scope), else the free-text loop. -/
def promptForParameter (d : ArmTemplateParameterDefinition)
    (cs : ConsoleState) : Except String ParamValue × ConsoleState :=
  match d.allowedValues with
  | some [] => (.error emptyAllowedValuesMessage, cs)
  | _ =>
    match resolveDefault d with
    | .error e => (.error e, cs)
    | .ok defVal =>
      match d.allowedValues with
      | some (a :: rest) =>
        match defVal with
        | some dv =>
          if (a :: rest).contains dv then doSelect (a :: rest) cs
          else (.error "default value is not an element of the allowed values", cs)
        | none => doSelect (a :: rest) cs
      | _ =>
        if d.paramType == "bool" then
          match cs.selectResponses with
          | [] => (.error "no select response scripted", cs)
          | i :: irest =>
            let cs1 : ConsoleState :=
              { cs with selectResponses := irest, selectCount := cs.selectCount + 1 }
            if i == 0 then (.ok (.bool false), cs1)
            else if i == 1 then (.ok (.bool true), cs1)
            else (.error "select index out of range", cs1)
        else
          match d.azdMetadata with
          | some md =>
            if md.azdType == some "location" then
              (.error "location picker not modelled", cs)
            else promptLoop d cs
          | none => promptLoop d cs

/-- A parameter definition with all optional fields absent. -/
def emptyDefinition : ArmTemplateParameterDefinition :=
  { paramType := "", allowedValues := none, minValue := none, maxValue := none,
    minLength := none, maxLength := none, azdMetadata := none }

/-- The int-bounds scenario definition of claim C5: type int, minValue 1,
maxValue 10. -/
def intBoundsDefinition : ArmTemplateParameterDefinition :=
  { emptyDefinition with
      paramType := "int", minValue := some 1, maxValue := some 10 }

/-- A console scripted with the given free-text responses and nothing else. -/
def consoleWithPrompts (rs : List String) : ConsoleState :=
  { promptResponses := rs, selectResponses := [], output := [],
    promptCount := 0, selectCount := 0 }

/-- C5: for the definition with type int, minValue 1 and maxValue 10 and the
successive terminal inputs "0", "11", "5", the prompter re-prompts after each
invalid input (three prompts are issued, no retry cap and no error surfaced),
returns the value 5, and the console output contains the literal segments
"at least '1'" and "at most '10'". -/
theorem claim_C5_int_bounds_retry_loop :
    (promptForParameter intBoundsDefinition
        (consoleWithPrompts ["0", "11", "5"])).1 = .ok (.num 5) ∧
    (promptForParameter intBoundsDefinition
        (consoleWithPrompts ["0", "11", "5"])).2.promptCount = 3 ∧
    ((promptForParameter intBoundsDefinition
        (consoleWithPrompts ["0", "11", "5"])).2.output.any
      (fun l => containsSubstr l "at least '1'")) = true ∧
    ((promptForParameter intBoundsDefinition
        (consoleWithPrompts ["0", "11", "5"])).2.output.any
      (fun l => containsSubstr l "at most '10'")) = true := by
  refine ⟨?_, ?_, ?_, ?_⟩ <;> rfl

/-- The scenario definition of claim C6 with a numeric azd default: type int,
metadata.azd.default the number 33. -/
def intDefaultNumDefinition : ArmTemplateParameterDefinition :=
  { emptyDefinition with
      paramType := "int", azdMetadata := some ⟨some (.num 33), none⟩ }

/-- The scenario definition of claim C6 with a string azd default: type int,
metadata.azd.default the numeric-looking string "33". -/
def intDefaultStrDefinition : ArmTemplateParameterDefinition :=
  { emptyDefinition with
      paramType := "int", azdMetadata := some ⟨some (.str "33"), none⟩ }

/-- C6: for every parameter definition with type int whose metadata.azd.default
is a string (even a numeric-looking one), promptForParameter fails immediately
with a configuration error and the console state is returned untouched (no
prompt issued); whereas the numeric default 33 is accepted: with the terminal
input "33" the prompter returns the value 33. -/
theorem claim_C6_int_default_string_rejected :
    (∀ (d : ArmTemplateParameterDefinition) (cs : ConsoleState)
        (md : AzdMetadataOptions) (s : String),
        d.paramType = "int" → d.azdMetadata = some md →
        md.default = some (.str s) →
        ∃ e, promptForParameter d cs = (.error e, cs)) ∧
    promptForParameter intDefaultNumDefinition (consoleWithPrompts ["33"]) =
      (.ok (.num 33),
        { promptResponses := [], selectResponses := [], output := [],
          promptCount := 1, selectCount := 0 }) := by
  constructor
  · intro d cs md s hT hM hD
    have hrd : resolveDefault d =
        .error "failed to convert the default value to an integer" := by
      simp [resolveDefault, hM, hD, hT]
    rcases hA : d.allowedValues with _ | (_ | ⟨a, rest⟩)
    · exact ⟨"failed to convert the default value to an integer", by
        simp [promptForParameter, hA, hrd]⟩
    · exact ⟨emptyAllowedValuesMessage, by simp [promptForParameter, hA]⟩
    · exact ⟨"failed to convert the default value to an integer", by
        simp [promptForParameter, hA, hrd]⟩
  · rfl

/-- Witness for C6: the concrete definition with type int and string default
"33" is rejected with the console untouched. -/
theorem claim_C6_int_default_string_rejected_witness :
    ∃ e, promptForParameter intDefaultStrDefinition (consoleWithPrompts []) =
      (.error e, consoleWithPrompts []) :=
  claim_C6_int_default_string_rejected.1 intDefaultStrDefinition
    (consoleWithPrompts []) ⟨some (.str "33"), none⟩ "33" rfl rfl rfl

/-- C7: for every parameter definition whose allowedValues is present but
empty, promptForParameter returns an error immediately and the console state
is returned unchanged: no prompt and no select is issued, no response
consumed, no message written. -/
theorem claim_C7_empty_allowed_values (d : ArmTemplateParameterDefinition)
    (cs : ConsoleState) (h : d.allowedValues = some []) :
    promptForParameter d cs = (.error emptyAllowedValuesMessage, cs) := by
  simp [promptForParameter, h]

/-- The scenario definition of claim C7: type string with an empty
allowedValues list. -/
def emptyAllowedDefinition : ArmTemplateParameterDefinition :=
  { emptyDefinition with paramType := "string", allowedValues := some [] }

/-- Witness for C7 at a concrete definition and console. -/
theorem claim_C7_empty_allowed_values_witness :
    promptForParameter emptyAllowedDefinition (consoleWithPrompts ["x"]) =
      (.error emptyAllowedValuesMessage, consoleWithPrompts ["x"]) :=
  claim_C7_empty_allowed_values emptyAllowedDefinition
    (consoleWithPrompts ["x"]) rfl

/- ===================== Part 2: the progress tracker ===================== -/

/-- The target resource of a deployment operation (§3.2): resource id,
resource name and resource type, as in
armresources.TargetResource (fields ID, ResourceName, ResourceType). -/
structure TargetResource where
  id : String
  resourceName : String
  resourceType : String
deriving Repr, DecidableEq

/-- One deployment operation as observed from the cloud engine (§3.2):
`provisioningState` is kept as the string the Go code switches on
("Succeeded", "Running", "Failed", "Canceled", ...); `timestamp` is the
completion time (time.Time compared with Before, modelled as an integer);
`duration` is the raw engine-reported duration string. -/
structure DeploymentOperation where
  targetResource : Option TargetResource
  provisioningState : String
  timestamp : Int
  duration : String
deriving Repr, DecidableEq

/-- Everything `ReportProgress` consumes from its collaborators in one tick:
the results of deployment.Get, deployment.DeploymentUrl and the
deployment-operations query, the dynamic resource-type display-name lookup
(GetResourceTypeDisplayName: an error becomes none), the static fallback
translation table (azapi.GetResourceTypeDisplayName, may yield ""), the
AZD_DEMO_MODE environment variable, the subscription id, and whether the
console spinner is interactive. -/
structure World where
  deploymentGet : Except String Unit
  deploymentUrl : Except String String
  operations : Except String (List DeploymentOperation)
  displayName : String → String → String → Option String
  staticDisplayName : String → String
  azdDemoMode : String
  subscriptionId : String
  spinnerInteractive : Bool

/-- The tracker's per-instance state (§3.6): whether the deployment has been
successfully fetched once, and the set of resource names already reported
(the Go map `displayedResources map[string]bool`, modelled as a list holding
the inserted keys). -/
structure DisplayState where
  deploymentStarted : Bool
  displayedResources : List String
deriving Repr, DecidableEq

/-- A structured UX item emitted to the console (§6.4). -/
inductive UxItem where
  | multilineMessage (lines : List String)
  | displayedResource (typeName name state : String) (duration : Int)
deriving Repr, DecidableEq

/-- One observable console or log effect of a tick. -/
inductive Event where
  | ensureBlankLine
  | messageUx (item : UxItem)
  | logLine (line : String)
  | showSpinner (message : String)
deriving Repr, DecidableEq

/-- Insert a key into the displayed-resources set (`m[k] = true` on a Go
map, so inserting an existing key leaves the set unchanged). -/
def setInsert (l : List String) (k : String) : List String :=
  if l.contains k then l else k :: l

/-- Go strconv.ParseBool: accepts exactly 1, t, T, TRUE, true, True as true
and 0, f, F, FALSE, false, False as false; anything else is an error. -/
def parseBool (s : String) : Option Bool :=
  if s == "1" || s == "t" || s == "T" || s == "TRUE" || s == "true"
      || s == "True" then some true
  else if s == "0" || s == "f" || s == "F" || s == "FALSE" || s == "false"
      || s == "False" then some false
  else none

/-- The demo-mode test of ReportProgress: `strconv.ParseBool(os.Getenv(
"AZD_DEMO_MODE"))` succeeded and returned true. -/
def demoModeEnabled (env : String) : Bool :=
  match parseBool env with
  | some true => true
  | _ => false

/-- Modelled from the spec: `convert.ParseDuration` is not among the staged
sources. The spec only requires that the parsed duration is truncated to
millisecond precision and that an unparseable duration becomes zero, so the
model reads the duration as a plain integer count of nanoseconds. -/
def parseDuration (s : String) : Option Int := parseIntText s

/-- Go `time.Duration.Truncate(time.Millisecond)`: round toward zero to a
multiple of a millisecond (1000000 nanoseconds). -/
def truncateMs (d : Int) : Int := Int.tdiv d 1000000 * 1000000

/-- Modelled from the spec: the local-time calendar rendering
(`Timestamp.Local().Format("2006-01-02 15:04:05")`) of the log line's
timestamp; rendering an abstract integer instant into a local civil time is
outside the modelled scope, so the instant is rendered as its decimal value. -/
def formatTimestamp (t : Int) : String := toString t

/-- Modelled from the spec: `output.WithLinkFormat` is not among the staged
sources; it wraps its argument in terminal link formatting. The announce step
computes `fmt.Sprintf(output.WithLinkFormat("%s\n"), deploymentUrl)`. -/
def deploymentLinkOf (url : String) : String :=
  "\x1b[36m" ++ url ++ "\n" ++ "\x1b[0m"

/-- The single pass of ReportProgress over the queried operations
(provisioning_progress_display.go lines 100-115): operations with no target
resource are skipped; operations whose resource name is already in the
displayed set are skipped; the rest are bucketed by provisioning state into
(newlyDeployed, running, newlyFailed), each in arrival order. -/
def classifyOps (displayed : List String) :
    List DeploymentOperation →
    List DeploymentOperation × List DeploymentOperation × List DeploymentOperation
  | [] => ([], [], [])
  | op :: rest =>
    let (dep, run, fail) := classifyOps displayed rest
    match op.targetResource with
    | none => (dep, run, fail)
    | some tr =>
      if displayed.contains tr.resourceName then (dep, run, fail)
      else if op.provisioningState == "Succeeded" then (op :: dep, run, fail)
      else if op.provisioningState == "Running" then (dep, op :: run, fail)
      else if op.provisioningState == "Failed" then (dep, run, op :: fail)
      else (dep, run, fail)

/-- The sort applied to newlyDeployedResources (lines 117-122):
`sort.Slice` with less = `Timestamp.Before`, i.e. ascending by timestamp.
Go's sort.Slice promises a sort with respect to less but is documented as
not guaranteed to be stable; the embedding realizes the contract with a
merge-style sort and, except where a claim record notes otherwise, no proof
relies on the order of equal timestamps. -/
def sortSlice (l : List DeploymentOperation) : List DeploymentOperation :=
  List.insertionSort (fun a b => a.timestamp ≤ b.timestamp) l

/-- Resolution of the human display name of a resource type (lines 135-146
and 180-191): the dynamic lookup (subscription id, resource id, resource
type), falling back to the static translation table on error. -/
def resolveDisplayName (w : World) (tr : TargetResource) : String :=
  match w.displayName w.subscriptionId tr.id tr.resourceType with
  | some n => n
  | none => w.staticDisplayName tr.resourceType

/-- The events of one iteration of the resource loop of
logNewlyCreatedResources (lines 134-176): when the resolved display name is
non-empty, a DisplayedResource UX item (with the duration parsed, zero on
error, truncated to milliseconds); in every case a log line, whose type part
is the display name when non-empty and the raw resource type otherwise. -/
def processResource (w : World) (op : DeploymentOperation) : List Event :=
  match op.targetResource with
  | none => []
  | some tr =>
    let resourceTypeName := tr.resourceType
    let typeDisplay := resolveDisplayName w tr
    let uxPart : List Event :=
      if typeDisplay ≠ "" then
        let duration := match parseDuration op.duration with
          | some d => d
          | none => 0
        [Event.messageUx (.displayedResource typeDisplay tr.resourceName
            op.provisioningState (truncateMs duration))]
      else []
    let typeShown := if typeDisplay ≠ "" then typeDisplay else resourceTypeName
    uxPart ++ [Event.logLine (formatTimestamp op.timestamp ++ " - "
      ++ op.provisioningState ++ " " ++ typeShown ++ ": " ++ tr.resourceName)]

/-- Insertion of every processed resource name into the displayed set (line
175, executed once per loop iteration). -/
def insertAll (l : List String) (ops : List DeploymentOperation) : List String :=
  ops.foldl (fun acc op =>
    match op.targetResource with
    | some tr => setInsert acc tr.resourceName
    | none => acc) l

/-- logNewlyCreatedResources (lines 129-212): emit the per-resource events and
record the names, compute the display names of the in-progress resources
(skipping empty ones), and, only when the spinner is interactive, show the
spinner message listing them. -/
def logNewlyCreatedResources (w : World) (s : DisplayState)
    (resources inProgressResources : List DeploymentOperation) :
    DisplayState × List Event :=
  let events := resources.flatMap (processResource w)
  let s1 : DisplayState :=
    { s with displayedResources := insertAll s.displayedResources resources }
  let inProgress := inProgressResources.filterMap (fun op =>
    match op.targetResource with
    | none => none
    | some tr =>
      let n := resolveDisplayName w tr
      if n ≠ "" then some n else none)
  let spinner : List Event :=
    if !w.spinnerInteractive then []
    else if inProgress.length > 0 then
      [Event.showSpinner ("Creating/Updating resources ("
        ++ String.intercalate ", " inProgress ++ ")")]
    else [Event.showSpinner "Creating/Updating resources"]
  (s1, events ++ spinner)

/-- The result of one ReportProgress tick: the new tracker state, the console
and log effects in order, and the error returned to the caller (none is the
nil return). -/
structure ReportResult where
  state : DisplayState
  events : List Event
  error : Option String
deriving Repr, DecidableEq

/-- The tail of ReportProgress from the operations query on (lines 90-126):
a failing query returns its error to the caller; otherwise the operations
are classified against the displayed set, newlyDeployed is sorted ascending
by timestamp, and the deployed-then-failed list is handed with the running
list to logNewlyCreatedResources. -/
def reportOpsPhase (w : World) (s : DisplayState) (pre : List Event) :
    ReportResult :=
  match w.operations with
  | .error e => ⟨s, pre, some e⟩
  | .ok operations =>
    let (dep, run, fail) := classifyOps s.displayedResources operations
    let newlyDeployed := sortSlice dep
    let displayedResources := newlyDeployed ++ fail
    let (s1, evs) := logNewlyCreatedResources w s displayedResources run
    ⟨s1, pre ++ evs, none⟩

/-- ReportProgress (lines 50-127). Before the deployment has started:
a failing deployment.Get is logged and swallowed (nil returned, state
untouched); on success deploymentStarted is set, a failing DeploymentUrl is
returned as the error, and otherwise the announcement (a blank line and a
multi-line message whose second line is the portal link, or a demo-mode
variant without the link) precedes the operations phase. -/
def ReportProgress (w : World) (s : DisplayState) : ReportResult :=
  if !s.deploymentStarted then
    match w.deploymentGet with
    | .error e =>
      ⟨s, [Event.logLine ("error while reporting progress: " ++ e)], none⟩
    | .ok _ =>
      let s1 : DisplayState := { s with deploymentStarted := true }
      match w.deploymentUrl with
      | .error e => ⟨s1, [], some e⟩
      | .ok url =>
        let lines :=
          if demoModeEnabled w.azdDemoMode then
            ["You can view detailed progress in the Azure Portal.", "\n"]
          else
            ["You can view detailed progress in the Azure Portal:",
              deploymentLinkOf url]
        reportOpsPhase w s1
          [Event.ensureBlankLine, Event.messageUx (.multilineMessage lines)]
  else reportOpsPhase w s []

/-- The resource names of the DisplayedResource UX items among the events, in
emission order. -/
def uxNames : List Event → List String
  | [] => []
  | Event.messageUx (.displayedResource _ n _ _) :: rest => n :: uxNames rest
  | _ :: rest => uxNames rest

/-- The DisplayedResource UX items among the events, in emission order. -/
def uxRows : List Event → List UxItem
  | [] => []
  | Event.messageUx (.displayedResource t n st d) :: rest =>
    UxItem.displayedResource t n st d :: uxRows rest
  | _ :: rest => uxRows rest

/-- The lines of the first multi-line UX message among the events, if any. -/
def announcedLines : List Event → Option (List String)
  | [] => none
  | Event.messageUx (.multilineMessage L) :: _ => some L
  | _ :: rest => announcedLines rest

/-- A sequence of ReportProgress ticks from a given state: the per-tick event
lists and the final state. One tracker instance is driven by the host with
one call per tick (§4.3); each tick's collaborator responses are a `World`. -/
def runTicks (s : DisplayState) : List World → List (List Event) × DisplayState
  | [] => ([], s)
  | w :: ws =>
    let r := ReportProgress w s
    let (t, sF) := runTicks r.state ws
    (r.events :: t, sF)

/-- The DisplayedResource UX row that `processResource` emits for an operation
whose display name resolves non-empty (the unreachable no-target case is given
a dummy row). -/
def rowOf (w : World) (op : DeploymentOperation) : UxItem :=
  match op.targetResource with
  | none => UxItem.multilineMessage []
  | some tr =>
    UxItem.displayedResource (resolveDisplayName w tr) tr.resourceName
      op.provisioningState
      (truncateMs (match parseDuration op.duration with
        | some d => d
        | none => 0))

instance : IsTotal DeploymentOperation (fun a b => a.timestamp ≤ b.timestamp) :=
  ⟨fun a b => le_total a.timestamp b.timestamp⟩

instance : IsTrans DeploymentOperation (fun a b => a.timestamp ≤ b.timestamp) :=
  ⟨fun _ _ _ => le_trans⟩

/-- A tick environment whose deployment-operations query fails; every other
collaborator responds normally. -/
def opsFailWorld : World :=
  { deploymentGet := .ok (), deploymentUrl := .ok "portal-url",
    operations := .error "operations query failed",
    displayName := fun _ _ _ => some "Storage account",
    staticDisplayName := fun _ => "", azdDemoMode := "",
    subscriptionId := "sub", spinnerInteractive := true }

/-- A tracker state in which the deployment has already started and nothing
has been displayed yet. -/
def startedState : DisplayState := ⟨true, []⟩

/-- Counterexample to C4 as stated: when the deployment-operations query
fails on a tick after the deployment has started, ReportProgress returns the
query error to the caller (it does not return success) and writes no log
event for it. -/
theorem claim_C4_counterexample :
    (ReportProgress opsFailWorld startedState).error =
        some "operations query failed" ∧
    (ReportProgress opsFailWorld startedState).events = [] := by
  exact ⟨rfl, rfl⟩

/-- C4 amended: a Deployment.Get failure before deploymentStarted is set is
logged and swallowed — ReportProgress returns success with the state
untouched, so the caller retries on the next tick — whereas a failure of the
deployment-operations query is returned as an error to the caller. -/
theorem claim_C4_transient_failure_policy (w : World) (s : DisplayState) :
    (∀ e, s.deploymentStarted = false → w.deploymentGet = .error e →
      ReportProgress w s =
        ⟨s, [Event.logLine ("error while reporting progress: " ++ e)], none⟩) ∧
    (∀ e, s.deploymentStarted = true → w.operations = .error e →
      ReportProgress w s = ⟨s, [], some e⟩) := by
  constructor
  · intro e hs hg
    simp [ReportProgress, hs, hg]
  · intro e hs hop
    simp [ReportProgress, reportOpsPhase, hs, hop]

/-- A tick environment whose deployment.Get fails. -/
def getFailWorld : World :=
  { opsFailWorld with deploymentGet := .error "get failed",
                      operations := .ok [] }

/-- Witness for the amended C4 at concrete inputs: both the swallowed Get
failure and the surfaced operations-query failure. -/
theorem claim_C4_transient_failure_policy_witness :
    ReportProgress getFailWorld ⟨false, []⟩ =
      ⟨⟨false, []⟩,
        [Event.logLine ("error while reporting progress: " ++ "get failed")],
        none⟩ ∧
    ReportProgress opsFailWorld startedState =
      ⟨startedState, [], some "operations query failed"⟩ :=
  ⟨(claim_C4_transient_failure_policy getFailWorld ⟨false, []⟩).1
      "get failed" rfl rfl,
    (claim_C4_transient_failure_policy opsFailWorld startedState).2
      "operations query failed" rfl rfl⟩

/-- C8: on a tick where the deployment has not yet been observed and
deployment.Get and DeploymentUrl succeed, the multi-line announcement is
emitted; when AZD_DEMO_MODE parses as a truthy boolean its lines are exactly
the demo prelude (the portal URL is omitted), and otherwise its second line
is the formatted portal link built from the URL, after the prelude line. -/
theorem claim_C8_demo_mode_announcement (w : World) (s : DisplayState)
    (url : String) (h1 : s.deploymentStarted = false)
    (h2 : w.deploymentGet = .ok ()) (h3 : w.deploymentUrl = .ok url) :
    announcedLines (ReportProgress w s).events =
      (if demoModeEnabled w.azdDemoMode then
        some ["You can view detailed progress in the Azure Portal.", "\n"]
      else
        some ["You can view detailed progress in the Azure Portal:",
          deploymentLinkOf url]) := by
  rcases hop : w.operations with e | ops <;>
    rcases hd : demoModeEnabled w.azdDemoMode <;>
      simp [ReportProgress, reportOpsPhase, h1, h2, h3, hop, hd,
        announcedLines, logNewlyCreatedResources]

/-- A tick environment in demo mode with an empty operation list. -/
def demoWorld : World :=
  { opsFailWorld with operations := .ok [], azdDemoMode := "1" }

/-- Witness for C8 at concrete inputs: in demo mode the announcement is the
demo prelude without the portal link. -/
theorem claim_C8_demo_mode_announcement_witness :
    announcedLines (ReportProgress demoWorld ⟨false, []⟩).events =
      (if demoModeEnabled demoWorld.azdDemoMode then
        some ["You can view detailed progress in the Azure Portal.", "\n"]
      else
        some ["You can view detailed progress in the Azure Portal:",
          deploymentLinkOf "portal-url"]) :=
  claim_C8_demo_mode_announcement demoWorld ⟨false, []⟩ "portal-url"
    rfl rfl rfl

/-- Classification ignores an operation whose provisioning state is none of
Succeeded, Running and Failed: deleting it from the query result leaves all
three buckets unchanged. -/
theorem classifyOps_append_inert (displayed : List String)
    (ops1 ops2 : List DeploymentOperation) (op : DeploymentOperation)
    (h1 : op.provisioningState ≠ "Succeeded")
    (h2 : op.provisioningState ≠ "Running")
    (h3 : op.provisioningState ≠ "Failed") :
    classifyOps displayed (ops1 ++ op :: ops2) =
      classifyOps displayed (ops1 ++ ops2) := by
  induction ops1 with
  | nil =>
    simp only [List.nil_append, classifyOps]
    rcases htr : op.targetResource with _ | tr
    · simp
    · simp [htr, h1, h2, h3]
  | cons a rest ih =>
    simp only [List.cons_append, classifyOps, List.append_eq]
    rw [ih]

/-- The resource loop, the spinner and the state update never read the
operations field of the tick environment. -/
theorem logNewly_update_operations (w : World)
    (x y : Except String (List DeploymentOperation)) (s : DisplayState)
    (rs ip : List DeploymentOperation) :
    logNewlyCreatedResources { w with operations := x } s rs ip =
      logNewlyCreatedResources { w with operations := y } s rs ip := rfl

/-- The operations phase depends on the operation list only through its
classification against the displayed set. -/
theorem reportOpsPhase_congr (w : World) (s : DisplayState) (pre : List Event)
    (L1 L2 : List DeploymentOperation)
    (h : classifyOps s.displayedResources L1 =
      classifyOps s.displayedResources L2) :
    reportOpsPhase { w with operations := .ok L1 } s pre =
      reportOpsPhase { w with operations := .ok L2 } s pre := by
  simp only [reportOpsPhase, h, logNewly_update_operations w (.ok L1) (.ok L2)]

/-- C10: an operation whose provisioningState is not Succeeded, Running or
Failed (for example Canceled) is inert: a tick that receives it behaves
exactly — same state, same events, same returned error — as the tick that
never received it, so it is neither emitted, nor logged, nor inserted into
displayedResources, nor counted in the spinner, and a later tick may
reconsider it. -/
theorem claim_C10_unclassified_op_is_inert (w : World) (s : DisplayState)
    (ops1 ops2 : List DeploymentOperation) (op : DeploymentOperation)
    (h1 : op.provisioningState ≠ "Succeeded")
    (h2 : op.provisioningState ≠ "Running")
    (h3 : op.provisioningState ≠ "Failed") :
    ReportProgress { w with operations := .ok (ops1 ++ op :: ops2) } s =
      ReportProgress { w with operations := .ok (ops1 ++ ops2) } s := by
  rcases hs : s.deploymentStarted with _ | _
  · simp only [ReportProgress, hs, Bool.not_false, if_true]
    rcases hg : w.deploymentGet with e | u
    · rfl
    · rcases hu : w.deploymentUrl with e | url
      · rfl
      · exact reportOpsPhase_congr w { s with deploymentStarted := true } _ _ _
          (classifyOps_append_inert _ ops1 ops2 op h1 h2 h3)
  · simp only [ReportProgress, hs, Bool.not_true, if_false]
    exact reportOpsPhase_congr w s [] _ _
      (classifyOps_append_inert _ ops1 ops2 op h1 h2 h3)

/-- Whether the classification loop would put `op` into the bucket of
provisioning state `st`: it has a target resource, its resource name is not
yet displayed, and its state matches. -/
def opCandidate (displayed : List String) (st : String)
    (op : DeploymentOperation) : Bool :=
  match op.targetResource with
  | none => false
  | some tr => !displayed.contains tr.resourceName
      && op.provisioningState == st

/-- The single classification pass equals three arrival-order filters, one per
recognized provisioning state. -/
theorem classifyOps_eq_filter (displayed : List String)
    (ops : List DeploymentOperation) :
    classifyOps displayed ops =
      (ops.filter (opCandidate displayed "Succeeded"),
        ops.filter (opCandidate displayed "Running"),
        ops.filter (opCandidate displayed "Failed")) := by
  induction ops with
  | nil => rfl
  | cons a rest ih =>
    simp only [classifyOps, ih, List.filter_cons]
    rcases htr : a.targetResource with _ | tr
    · simp [opCandidate, htr]
    · by_cases hc : tr.resourceName ∈ displayed
      · simp [opCandidate, htr, hc]
      · by_cases h1 : a.provisioningState = "Succeeded"
        · simp [opCandidate, htr, hc, h1]
        · by_cases h2 : a.provisioningState = "Running"
          · simp [opCandidate, htr, hc, h1, h2]
          · by_cases h3 : a.provisioningState = "Failed"
            · simp [opCandidate, htr, hc, h1, h2, h3]
            · simp [opCandidate, htr, hc, h1, h2, h3]

/-- Membership is preserved by inserting a key into the displayed set. -/
theorem mem_setInsert_of_mem (l : List String) (k n : String) (h : n ∈ l) :
    n ∈ setInsert l k := by
  unfold setInsert
  by_cases hc : k ∈ l <;> simp [hc, h]

/-- An inserted key is a member of the displayed set. -/
theorem mem_setInsert_self (l : List String) (k : String) :
    k ∈ setInsert l k := by
  unfold setInsert
  by_cases hc : k ∈ l <;> simp [hc]

/-- Membership is preserved by the per-loop insertions over a resource list. -/
theorem mem_insertAll_of_mem (ops : List DeploymentOperation)
    (l : List String) (n : String) (h : n ∈ l) : n ∈ insertAll l ops := by
  induction ops generalizing l with
  | nil => exact h
  | cons op rest ih =>
    unfold insertAll
    rcases htr : op.targetResource with _ | tr <;>
      simp only [List.foldl_cons, htr]
    · exact ih l h
    · exact ih _ (mem_setInsert_of_mem l tr.resourceName n h)

/-- The name of every processed resource with a target is in the displayed
set after the insertions. -/
theorem mem_insertAll_of_op (ops : List DeploymentOperation)
    (l : List String) (op : DeploymentOperation) (tr : TargetResource)
    (hop : op ∈ ops) (htr : op.targetResource = some tr) :
    tr.resourceName ∈ insertAll l ops := by
  induction ops generalizing l with
  | nil => cases hop
  | cons a rest ih =>
    unfold insertAll
    rcases List.mem_cons.mp hop with rfl | hmem
    · simp only [List.foldl_cons, htr]
      exact mem_insertAll_of_mem rest _ _ (mem_setInsert_self l tr.resourceName)
    · rcases hta : a.targetResource with _ | tra <;>
        simp only [List.foldl_cons, hta]
      · exact ih l hmem
      · exact ih _ hmem

/-- Resource-row names distribute over event concatenation. -/
theorem uxNames_append (a b : List Event) :
    uxNames (a ++ b) = uxNames a ++ uxNames b := by
  induction a with
  | nil => rfl
  | cons e rest ih =>
    cases e with
    | ensureBlankLine => simp [uxNames, ih]
    | messageUx item => cases item <;> simp [uxNames, ih]
    | logLine l => simp [uxNames, ih]
    | showSpinner m => simp [uxNames, ih]

/-- A resource-row name produced by processing one operation is the
operation's target resource name. -/
theorem uxNames_processResource (w : World) (op : DeploymentOperation)
    (n : String) (h : n ∈ uxNames (processResource w op)) :
    ∃ tr, op.targetResource = some tr ∧ tr.resourceName = n ∧
      resolveDisplayName w tr ≠ "" := by
  rcases htr : op.targetResource with _ | tr
  · simp [processResource, htr, uxNames] at h
  · by_cases hd : resolveDisplayName w tr = ""
    · simp [processResource, htr, hd, uxNames] at h
    · refine ⟨tr, rfl, ?_, hd⟩
      simp [processResource, htr, hd, uxNames] at h
      exact h.symm

/-- A resource-row name emitted by the resource loop belongs to one of the
processed operations. -/
theorem uxNames_flatMap (w : World) (l : List DeploymentOperation)
    (n : String) (h : n ∈ uxNames (l.flatMap (processResource w))) :
    ∃ op ∈ l, ∃ tr, op.targetResource = some tr ∧ tr.resourceName = n ∧
      resolveDisplayName w tr ≠ "" := by
  induction l with
  | nil => simp [uxNames] at h
  | cons op rest ih =>
    rw [List.flatMap_cons, uxNames_append] at h
    rcases List.mem_append.mp h with h1 | h2
    · exact ⟨op, List.mem_cons_self op rest, uxNames_processResource w op n h1⟩
    · obtain ⟨op2, hmem, htr⟩ := ih h2
      exact ⟨op2, List.mem_cons_of_mem op hmem, htr⟩

/-- The spinner events of logNewlyCreatedResources, standalone: the display
names of the in-progress resources (empty ones skipped), shown only on an
interactive console. -/
def spinnerEvents (w : World)
    (inProgressResources : List DeploymentOperation) : List Event :=
  let inProgress := inProgressResources.filterMap (fun op =>
    match op.targetResource with
    | none => none
    | some tr =>
      let n := resolveDisplayName w tr
      if n ≠ "" then some n else none)
  if !w.spinnerInteractive then []
  else if inProgress.length > 0 then
    [Event.showSpinner ("Creating/Updating resources ("
      ++ String.intercalate ", " inProgress ++ ")")]
  else [Event.showSpinner "Creating/Updating resources"]

/-- The resource loop's full output: per-resource events, the updated state,
and the spinner. -/
theorem logNewly_eq (w : World) (s : DisplayState)
    (rs ip : List DeploymentOperation) :
    logNewlyCreatedResources w s rs ip =
      ({ s with displayedResources := insertAll s.displayedResources rs },
        rs.flatMap (processResource w) ++ spinnerEvents w ip) := rfl

/-- Spinner events never carry a resource row. -/
theorem uxNames_spinnerEvents (w : World) (l : List DeploymentOperation) :
    uxNames (spinnerEvents w l) = [] := by
  simp only [spinnerEvents]
  split
  · rfl
  · split <;> rfl

/-- Shorthand for the list of resources one successful tick processes: the
newly deployed candidates sorted ascending by timestamp, then the newly
failed candidates in arrival order. -/
def processedList (displayed : List String)
    (ops : List DeploymentOperation) : List DeploymentOperation :=
  sortSlice (ops.filter (opCandidate displayed "Succeeded"))
    ++ ops.filter (opCandidate displayed "Failed")

/-- The operations phase on a failing query returns the error with only the
prefix events and the state untouched. -/
theorem reportOpsPhase_err_eq (w : World) (s : DisplayState)
    (pre : List Event) (e : String) (hops : w.operations = .error e) :
    reportOpsPhase w s pre = ⟨s, pre, some e⟩ := by
  unfold reportOpsPhase
  rw [hops]

/-- The operations phase on a successful query, written out: the state gains
the names of the processed resources, the events are the prefix, the
resource loop output and the spinner, and no error is returned. -/
theorem reportOpsPhase_ok_eq (w : World) (s : DisplayState) (pre : List Event)
    (ops : List DeploymentOperation) (hops : w.operations = .ok ops) :
    reportOpsPhase w s pre =
      ⟨DisplayState.mk s.deploymentStarted
          (insertAll s.displayedResources
            (processedList s.displayedResources ops)),
        pre ++ ((processedList s.displayedResources ops).flatMap
            (processResource w)
          ++ spinnerEvents w
            (ops.filter (opCandidate s.displayedResources "Running"))),
        none⟩ := by
  unfold reportOpsPhase
  rw [hops]
  simp only [classifyOps_eq_filter]
  rfl

/-- A candidate operation's resource name is not yet displayed. -/
theorem opCandidate_not_displayed (displayed : List String) (st : String)
    (op : DeploymentOperation) (tr : TargetResource)
    (htr : op.targetResource = some tr)
    (hc : opCandidate displayed st op = true) :
    tr.resourceName ∉ displayed := by
  simp only [opCandidate, htr, Bool.and_eq_true, Bool.not_eq_true'] at hc
  intro hmem
  have h1 : displayed.contains tr.resourceName = true := List.elem_iff.mpr hmem
  rw [h1] at hc
  simp at hc

/-- A member of the processed list is a Succeeded or Failed candidate. -/
theorem mem_processedList (displayed : List String)
    (ops : List DeploymentOperation) (op : DeploymentOperation)
    (h : op ∈ processedList displayed ops) :
    opCandidate displayed "Succeeded" op = true ∨
      opCandidate displayed "Failed" op = true := by
  rcases List.mem_append.mp h with hd | hf
  · exact Or.inl (List.mem_filter.mp
      ((List.perm_insertionSort _ _).mem_iff.mp hd)).2
  · exact Or.inr (List.mem_filter.mp hf).2

/-- Any name emitted as a resource row by the operations phase is in the
displayed set afterwards. -/
theorem phase_emitted_mem_state (w : World) (s : DisplayState)
    (pre : List Event) (n : String) (hpre : uxNames pre = [])
    (h : n ∈ uxNames (reportOpsPhase w s pre).events) :
    n ∈ (reportOpsPhase w s pre).state.displayedResources := by
  rcases hops : w.operations with e | ops
  · rw [reportOpsPhase_err_eq w s pre e hops] at h
    simp [hpre] at h
  · rw [reportOpsPhase_ok_eq w s pre ops hops] at h ⊢
    simp only [uxNames_append, hpre, uxNames_spinnerEvents, List.nil_append,
      List.append_nil] at h
    obtain ⟨op, hmem, tr, htr, hname, _⟩ := uxNames_flatMap w _ n h
    subst hname
    exact mem_insertAll_of_op _ _ op tr hmem htr

/-- The operations phase never removes a name from the displayed set. -/
theorem phase_preserves_mem (w : World) (s : DisplayState) (pre : List Event)
    (n : String) (h : n ∈ s.displayedResources) :
    n ∈ (reportOpsPhase w s pre).state.displayedResources := by
  rcases hops : w.operations with e | ops
  · rw [reportOpsPhase_err_eq w s pre e hops]
    exact h
  · rw [reportOpsPhase_ok_eq w s pre ops hops]
    exact mem_insertAll_of_mem _ _ _ h

/-- The operations phase never emits a resource row for a name already in the
displayed set. -/
theorem phase_no_reemit (w : World) (s : DisplayState) (pre : List Event)
    (n : String) (hpre : uxNames pre = []) (hmem : n ∈ s.displayedResources) :
    n ∉ uxNames (reportOpsPhase w s pre).events := by
  rcases hops : w.operations with e | ops
  · rw [reportOpsPhase_err_eq w s pre e hops]
    simp [hpre]
  · rw [reportOpsPhase_ok_eq w s pre ops hops]
    intro h
    simp only [uxNames_append, hpre, uxNames_spinnerEvents, List.nil_append,
      List.append_nil] at h
    obtain ⟨op, hopmem, tr, htr, hname, _⟩ := uxNames_flatMap w _ n h
    rcases mem_processedList _ _ op hopmem with hc | hc <;>
      exact opCandidate_not_displayed _ _ op tr htr hc (hname ▸ hmem)

/-- Any name emitted as a resource row during a tick is in the displayed set
at the end of the tick. -/
theorem tick_emitted_mem_state (w : World) (s : DisplayState) (n : String)
    (h : n ∈ uxNames (ReportProgress w s).events) :
    n ∈ (ReportProgress w s).state.displayedResources := by
  rcases hs : s.deploymentStarted with _ | _
  · rcases hg : w.deploymentGet with e | u
    · simp only [ReportProgress, hs, Bool.not_false, if_true, hg] at h
      simp [uxNames] at h
    · rcases hu : w.deploymentUrl with e | url
      · simp only [ReportProgress, hs, Bool.not_false, if_true, hg, hu] at h
        simp [uxNames] at h
      · simp only [ReportProgress, hs, Bool.not_false, if_true, hg, hu] at h ⊢
        exact phase_emitted_mem_state w _ _ n rfl h
  · simp only [ReportProgress, hs, Bool.not_true, if_false] at h ⊢
    exact phase_emitted_mem_state w s [] n rfl h

/-- A tick never removes a name from the displayed set. -/
theorem tick_preserves_mem (w : World) (s : DisplayState) (n : String)
    (h : n ∈ s.displayedResources) :
    n ∈ (ReportProgress w s).state.displayedResources := by
  rcases hs : s.deploymentStarted with _ | _
  · rcases hg : w.deploymentGet with e | u
    · simp only [ReportProgress, hs, Bool.not_false, if_true, hg]
      exact h
    · rcases hu : w.deploymentUrl with e | url
      · simp only [ReportProgress, hs, Bool.not_false, if_true, hg, hu]
        exact h
      · simp only [ReportProgress, hs, Bool.not_false, if_true, hg, hu]
        exact phase_preserves_mem w _ _ n h
  · simp only [ReportProgress, hs, Bool.not_true, if_false]
    exact phase_preserves_mem w s [] n h

/-- A tick never emits a resource row for a name already in the displayed
set. -/
theorem tick_no_reemit (w : World) (s : DisplayState) (n : String)
    (h : n ∈ s.displayedResources) :
    n ∉ uxNames (ReportProgress w s).events := by
  rcases hs : s.deploymentStarted with _ | _
  · rcases hg : w.deploymentGet with e | u
    · simp only [ReportProgress, hs, Bool.not_false, if_true, hg]
      simp [uxNames]
    · rcases hu : w.deploymentUrl with e | url
      · simp only [ReportProgress, hs, Bool.not_false, if_true, hg, hu]
        simp [uxNames]
      · simp only [ReportProgress, hs, Bool.not_false, if_true, hg, hu]
        exact phase_no_reemit w _ _ n rfl h
  · simp only [ReportProgress, hs, Bool.not_true, if_false]
    exact phase_no_reemit w s [] n rfl h

/-- One step of the tick sequence. -/
theorem runTicks_cons (s : DisplayState) (w : World) (ws : List World) :
    runTicks s (w :: ws) =
      ((ReportProgress w s).events ::
          (runTicks (ReportProgress w s).state ws).1,
        (runTicks (ReportProgress w s).state ws).2) := rfl

/-- Once a name is in the displayed set, no later tick ever emits a resource
row for it. -/
theorem never_reemitted (n : String) (ws : List World) (s : DisplayState)
    (h : n ∈ s.displayedResources) :
    ∀ evs ∈ (runTicks s ws).1, n ∉ uxNames evs := by
  induction ws generalizing s with
  | nil =>
    intro evs hevs
    simp [runTicks] at hevs
  | cons w rest ih =>
    intro evs hevs
    rw [runTicks_cons] at hevs
    rcases List.mem_cons.mp hevs with rfl | hmem
    · exact tick_no_reemit w s n h
    · exact ih (ReportProgress w s).state (tick_preserves_mem w s n h) evs hmem

/-- C1: across the ticks of one tracker instance, a resource name emitted as
a structured DisplayedResource UX item in one tick is never emitted again in
any later tick: once processed, the displayedResources set filters every
operation with that name out of all later ticks. -/
theorem claim_C1_name_emitted_at_most_once (ws : List World)
    (s0 : DisplayState) (i j : Nat) (hij : i < j)
    (evsI evsJ : List Event)
    (hI : ((runTicks s0 ws).1).get? i = some evsI)
    (hJ : ((runTicks s0 ws).1).get? j = some evsJ)
    (n : String) (hn : n ∈ uxNames evsI) :
    n ∉ uxNames evsJ := by
  induction ws generalizing s0 i j with
  | nil => simp [runTicks] at hI
  | cons w rest ih =>
    rw [runTicks_cons] at hI hJ
    rcases j with _ | j2
    · exact absurd hij (Nat.not_lt_zero i)
    · rw [List.get?_cons_succ] at hJ
      rcases i with _ | i2
      · rw [List.get?_cons_zero] at hI
        injection hI with hI
        subst hI
        exact never_reemitted n rest (ReportProgress w s0).state
          (tick_emitted_mem_state w s0 n hn) evsJ (List.get?_mem hJ)
      · rw [List.get?_cons_succ] at hI
        exact ih (ReportProgress w s0).state i2 j2
          (Nat.lt_of_succ_lt_succ hij) hI hJ

/-- A concrete succeeded operation on resource name r. -/
def succeededOp : DeploymentOperation :=
  { targetResource := some ⟨"id-r", "r", "Microsoft.Storage/storageAccounts"⟩,
    provisioningState := "Succeeded", timestamp := 3, duration := "2000000" }

/-- A concrete tick environment that reports the one succeeded operation. -/
def tickWorld : World :=
  { deploymentGet := .ok (), deploymentUrl := .ok "portal-url",
    operations := .ok [succeededOp],
    displayName := fun _ _ _ => some "Storage account",
    staticDisplayName := fun _ => "", azdDemoMode := "",
    subscriptionId := "sub", spinnerInteractive := true }

/-- The events of the first tick of `tickWorld` from a fresh tracker. -/
def tickZeroEvents : List Event :=
  [Event.ensureBlankLine,
    Event.messageUx (.multilineMessage
      ["You can view detailed progress in the Azure Portal:",
        deploymentLinkOf "portal-url"]),
    Event.messageUx (.displayedResource "Storage account" "r" "Succeeded"
      2000000),
    Event.logLine "3 - Succeeded Storage account: r",
    Event.showSpinner "Creating/Updating resources"]

/-- Witness for C1: the resource r is emitted on the first tick and is not
emitted again on the second tick of the same tracker. -/
theorem claim_C1_name_emitted_at_most_once_witness :
    "r" ∉ uxNames [Event.showSpinner "Creating/Updating resources"] :=
  claim_C1_name_emitted_at_most_once [tickWorld, tickWorld] ⟨false, []⟩ 0 1
    (by decide) tickZeroEvents
    [Event.showSpinner "Creating/Updating resources"]
    (by rfl) (by rfl) "r" (by decide)

/-- Resource rows distribute over event concatenation. -/
theorem uxRows_append (a b : List Event) :
    uxRows (a ++ b) = uxRows a ++ uxRows b := by
  induction a with
  | nil => rfl
  | cons e rest ih =>
    cases e with
    | ensureBlankLine => simp [uxRows, ih]
    | messageUx item => cases item <;> simp [uxRows, ih]
    | logLine l => simp [uxRows, ih]
    | showSpinner m => simp [uxRows, ih]

/-- Spinner events never carry a resource row. -/
theorem uxRows_spinnerEvents (w : World) (l : List DeploymentOperation) :
    uxRows (spinnerEvents w l) = [] := by
  simp only [spinnerEvents]
  split
  · rfl
  · split <;> rfl

/-- The resource loop of a tick whose every processed operation has a target
resource with a non-empty display name emits exactly one row per operation,
in processing order. -/
theorem uxRows_flatMap_of_nonempty (w : World)
    (l : List DeploymentOperation)
    (hsome : ∀ op ∈ l, (op.targetResource).isSome = true)
    (hne : ∀ op ∈ l, ∀ tr, op.targetResource = some tr →
      resolveDisplayName w tr ≠ "") :
    uxRows (l.flatMap (processResource w)) = l.map (rowOf w) := by
  induction l with
  | nil => rfl
  | cons op rest ih =>
    rw [List.flatMap_cons, uxRows_append, List.map_cons]
    rcases htr : op.targetResource with _ | tr
    · have := hsome op (List.mem_cons_self op rest)
      rw [htr] at this
      cases this
    · have hd := hne op (List.mem_cons_self op rest) tr htr
      rw [show uxRows (processResource w op) = [rowOf w op] by
        simp [processResource, rowOf, htr, hd, uxRows]]
      rw [ih (fun o ho => hsome o (List.mem_cons_of_mem op ho))
        (fun o ho => hne o (List.mem_cons_of_mem op ho))]
      rfl

/-- A candidate operation has a target resource. -/
theorem opCandidate_isSome (displayed : List String) (st : String)
    (op : DeploymentOperation) (hc : opCandidate displayed st op = true) :
    (op.targetResource).isSome = true := by
  rcases htr : op.targetResource with _ | tr
  · rw [opCandidate, htr] at hc
    cases hc
  · rfl

/-- A processed resource comes from the queried operation list. -/
theorem mem_ops_of_mem_processedList (displayed : List String)
    (ops : List DeploymentOperation) (op : DeploymentOperation)
    (h : op ∈ processedList displayed ops) : op ∈ ops := by
  rcases List.mem_append.mp h with hd | hf
  · exact List.mem_of_mem_filter ((List.perm_insertionSort _ _).mem_iff.mp hd)
  · exact List.mem_of_mem_filter hf

/-- Whenever a tick reaches the operations query — the deployment had started
already, or Get and DeploymentUrl both succeed — the tick is the operations
phase run after a (possibly empty) announcement prefix that carries no
resource row. -/
theorem ReportProgress_reaches_ops (w : World) (st : Bool)
    (disp : List String) (hreach : st = true ∨
      (w.deploymentGet = .ok () ∧ ∃ url, w.deploymentUrl = .ok url)) :
    ∃ pre, uxNames pre = [] ∧ uxRows pre = [] ∧
      ReportProgress w ⟨st, disp⟩ = reportOpsPhase w ⟨true, disp⟩ pre := by
  rcases st with _ | _
  · rcases hreach with hst | ⟨hg, url, hu⟩
    · cases hst
    · refine ⟨[Event.ensureBlankLine, Event.messageUx (.multilineMessage
        (if demoModeEnabled w.azdDemoMode then
          ["You can view detailed progress in the Azure Portal.", "\n"]
        else
          ["You can view detailed progress in the Azure Portal:",
            deploymentLinkOf url]))], rfl, rfl, ?_⟩
      simp only [ReportProgress, Bool.not_false, if_true, hg, hu]
  · exact ⟨[], rfl, rfl, rfl⟩

/-- C2: within a single tick that reaches a successful operations query, and
in which every processed resource's type resolves to a non-empty display name
(otherwise §4.3.3 suppresses its row — claim C9), the emitted row sequence is
exactly all newly succeeded resources sorted ascending by timestamp followed
by all newly failed resources in arrival order: the succeeded block is
non-decreasing by timestamp and is a permutation of all succeeded
candidates, and the failed block is the arrival-order filter itself. -/
theorem claim_C2_tick_emission_order (w : World) (st : Bool)
    (disp : List String) (ops : List DeploymentOperation)
    (hops : w.operations = .ok ops)
    (hreach : st = true ∨
      (w.deploymentGet = .ok () ∧ ∃ url, w.deploymentUrl = .ok url))
    (hname : ∀ op ∈ ops, ∀ tr, op.targetResource = some tr →
      resolveDisplayName w tr ≠ "") :
    uxRows (ReportProgress w ⟨st, disp⟩).events =
      (sortSlice (ops.filter (opCandidate disp "Succeeded"))).map (rowOf w)
        ++ (ops.filter (opCandidate disp "Failed")).map (rowOf w) ∧
    List.Pairwise (fun a b => a.timestamp ≤ b.timestamp)
      (sortSlice (ops.filter (opCandidate disp "Succeeded"))) ∧
    (sortSlice (ops.filter (opCandidate disp "Succeeded"))).Perm
      (ops.filter (opCandidate disp "Succeeded")) := by
  obtain ⟨pre, hpreN, hpreR, heq⟩ := ReportProgress_reaches_ops w st disp hreach
  refine ⟨?_, List.sorted_insertionSort _ _, List.perm_insertionSort _ _⟩
  rw [heq, reportOpsPhase_ok_eq w _ pre ops hops]
  dsimp only
  rw [uxRows_append, uxRows_append, hpreR, uxRows_spinnerEvents,
    List.nil_append, List.append_nil]
  rw [uxRows_flatMap_of_nonempty w _
    (fun op ho => by
      rcases mem_processedList _ _ op ho with hc | hc <;>
        exact opCandidate_isSome _ _ op hc)
    (fun op ho tr htr =>
      hname op (mem_ops_of_mem_processedList _ _ op ho) tr htr)]
  rw [processedList, List.map_append]

/-- A second concrete succeeded operation, earlier than `succeededOp`. -/
def succeededOpEarly : DeploymentOperation :=
  { targetResource := some ⟨"id-a", "a", "Microsoft.Web/sites"⟩,
    provisioningState := "Succeeded", timestamp := 1, duration := "0" }

/-- A concrete failed operation. -/
def failedOp : DeploymentOperation :=
  { targetResource := some ⟨"id-f", "f", "Microsoft.Web/sites"⟩,
    provisioningState := "Failed", timestamp := 2, duration := "0" }

/-- A tick environment reporting a failed operation first and two succeeded
operations out of timestamp order. -/
def orderWorld : World :=
  { tickWorld with operations := .ok [failedOp, succeededOp, succeededOpEarly] }

/-- Witness for C2 at a concrete tick: the failed arrival is emitted after
the two succeeded rows, which are sorted by timestamp. -/
theorem claim_C2_tick_emission_order_witness :
    uxRows (ReportProgress orderWorld ⟨true, []⟩).events =
      (sortSlice ([failedOp, succeededOp, succeededOpEarly].filter
          (opCandidate [] "Succeeded"))).map (rowOf orderWorld)
        ++ ([failedOp, succeededOp, succeededOpEarly].filter
          (opCandidate [] "Failed")).map (rowOf orderWorld) ∧
    List.Pairwise (fun a b => a.timestamp ≤ b.timestamp)
      (sortSlice ([failedOp, succeededOp, succeededOpEarly].filter
        (opCandidate [] "Succeeded"))) ∧
    (sortSlice ([failedOp, succeededOp, succeededOpEarly].filter
        (opCandidate [] "Succeeded"))).Perm
      ([failedOp, succeededOp, succeededOpEarly].filter
        (opCandidate [] "Succeeded")) :=
  claim_C2_tick_emission_order orderWorld true []
    [failedOp, succeededOp, succeededOpEarly] rfl (Or.inl rfl)
    (fun _ _ _ _ => (by decide : ("Storage account" : String) ≠ ""))

/-- C9: a processed succeeded or failed resource all of whose operations
resolve to an empty display name is not emitted as a DisplayedResource UX
item, yet its name is inserted into displayedResources, and therefore no
later tick of the tracker ever emits a UX item for that name either. -/
theorem claim_C9_empty_display_name_suppressed (w : World) (st : Bool)
    (disp : List String) (ops : List DeploymentOperation) (ws : List World)
    (n : String) (hops : w.operations = .ok ops)
    (hreach : st = true ∨
      (w.deploymentGet = .ok () ∧ ∃ url, w.deploymentUrl = .ok url))
    (hproc : ∃ op ∈ ops, ∃ tr, op.targetResource = some tr ∧
      tr.resourceName = n ∧
      (op.provisioningState = "Succeeded" ∨ op.provisioningState = "Failed"))
    (hnotyet : n ∉ disp)
    (hempty : ∀ op ∈ ops, ∀ tr, op.targetResource = some tr →
      tr.resourceName = n → resolveDisplayName w tr = "") :
    n ∉ uxNames (ReportProgress w ⟨st, disp⟩).events ∧
    n ∈ (ReportProgress w ⟨st, disp⟩).state.displayedResources ∧
    ∀ evs ∈ (runTicks (ReportProgress w ⟨st, disp⟩).state ws).1,
      n ∉ uxNames evs := by
  obtain ⟨pre, hpreN, hpreR, heq⟩ := ReportProgress_reaches_ops w st disp hreach
  have h2 : n ∈ (ReportProgress w ⟨st, disp⟩).state.displayedResources := by
    rw [heq, reportOpsPhase_ok_eq w _ pre ops hops]
    dsimp only
    obtain ⟨op, hop, tr, htr, hnm, hstate⟩ := hproc
    have hcont : disp.contains tr.resourceName = false := by
      cases hct : disp.contains tr.resourceName
      · rfl
      · exact absurd (hnm ▸ List.elem_iff.mp hct) hnotyet
    have hmemproc : op ∈ processedList disp ops := by
      rcases hstate with hS | hF
      · refine List.mem_append.mpr (Or.inl ?_)
        refine (List.perm_insertionSort _ _).mem_iff.mpr ?_
        refine List.mem_filter.mpr ⟨hop, ?_⟩
        simp only [opCandidate, htr, hcont, hS, Bool.not_false, Bool.and_self]
        simp
      · refine List.mem_append.mpr (Or.inr ?_)
        refine List.mem_filter.mpr ⟨hop, ?_⟩
        simp only [opCandidate, htr, hcont, hF, Bool.not_false, Bool.and_self]
        simp
    exact hnm ▸ mem_insertAll_of_op _ _ op tr hmemproc htr
  refine ⟨?_, h2, never_reemitted n ws _ h2⟩
  rw [heq, reportOpsPhase_ok_eq w _ pre ops hops]
  dsimp only
  intro h
  rw [uxNames_append, uxNames_append, hpreN, uxNames_spinnerEvents] at h
  simp only [List.nil_append, List.append_nil] at h
  obtain ⟨op, hopmem, tr, htr, hnm, hne⟩ := uxNames_flatMap w _ n h
  exact hne (hempty op (mem_ops_of_mem_processedList _ _ op hopmem) tr htr hnm)

/-- A concrete succeeded operation whose type has no display-name
translation. -/
def ghostOp : DeploymentOperation :=
  { targetResource := some ⟨"id-g", "ghost", "Custom.Provider/things"⟩,
    provisioningState := "Succeeded", timestamp := 1, duration := "0" }

/-- A tick environment where the dynamic display-name lookup fails and the
static table has no entry. -/
def ghostWorld : World :=
  { tickWorld with
      operations := .ok [ghostOp], displayName := fun _ _ _ => none, staticDisplayName := fun _ => "" }

/-- Witness for C9 at a concrete tick: the unresolvable resource is never
emitted but is recorded, and a following tick still emits nothing for it. -/
theorem claim_C9_empty_display_name_suppressed_witness :
    "ghost" ∉ uxNames (ReportProgress ghostWorld ⟨true, []⟩).events ∧
    "ghost" ∈ (ReportProgress ghostWorld ⟨true, []⟩).state.displayedResources ∧
    ∀ evs ∈ (runTicks (ReportProgress ghostWorld ⟨true, []⟩).state
      [ghostWorld]).1, "ghost" ∉ uxNames evs :=
  claim_C9_empty_display_name_suppressed ghostWorld true [] [ghostOp]
    [ghostWorld] "ghost" rfl (Or.inl rfl)
    ⟨ghostOp, List.mem_cons_self ghostOp [],
      ⟨"id-g", "ghost", "Custom.Provider/things"⟩, rfl, rfl, Or.inl rfl⟩
    (by decide) (fun _ _ _ _ _ => by rfl)

/-- A concrete canceled operation. -/
def canceledOp : DeploymentOperation :=
  { targetResource := some ⟨"id-c", "c", "Microsoft.Web/sites"⟩,
    provisioningState := "Canceled", timestamp := 5, duration := "0" }

/-- Witness for C10 at a concrete tick: a canceled operation in the query
result changes nothing about the tick. -/
theorem claim_C10_unclassified_op_is_inert_witness :
    ReportProgress
        { tickWorld with operations := .ok ([succeededOp] ++ canceledOp :: []) }
        ⟨true, []⟩ =
      ReportProgress { tickWorld with operations := .ok ([succeededOp] ++ []) }
        ⟨true, []⟩ :=
  claim_C10_unclassified_op_is_inert tickWorld ⟨true, []⟩ [succeededOp] []
    canceledOp (by decide) (by decide) (by decide)
